import Mathlib

/-!
Shallow embedding of the text-classification tool (src/1_app.py).

The program keeps a session-scoped mapping from category names to keyword
sets (`st.session_state.dictionaries`), lets the user add, update and
delete categories, and classifies each text by lowercasing it and testing,
for each category in the mapping's insertion order, whether any keyword of
that category occurs as a contiguous substring.

Embedding choices:
- A Python dict with string keys is a `List (String × α)` in insertion
  order with pairwise-distinct keys; dict assignment is `assocSet`
  (overwrite keeps the key's original position, as CPython dicts do) and
  dict lookup is `assocLookup`.
- A Python keyword `set` is a duplicate-free `List String` (`setOfList`);
  only membership and emptiness of the set matter to the program.
- A cell value handed to `classify_text` may be a non-string (pandas
  yields numbers, booleans, missing values), so classifier inputs are
  `PyValue` with `pyStr` playing the role of Python's `str`.
- Python string primitives are re-implemented structurally over the
  character list of the string: `str.lower` is `pyLower`, `str.strip` is
  `pyStrip`, `s.split` on a newline is `splitLines`, `k in t` (substring
  test) is `strContains t k`, and `sep.join(l)` is `joinWith sep l`.
-/

/-- Values that can appear in a table cell or be passed to the classifier. -/
inductive PyValue where
  | str (s : String)
  | int (n : Int)
  | bool (b : Bool)
  | none
deriving DecidableEq

/-- Python's `str(x)` on the embedded values. -/
def pyStr : PyValue → String
  | PyValue.str s => s
  | PyValue.int n => toString n
  | PyValue.bool b => if b then "True" else "False"
  | PyValue.none => "None"

/-- ASCII lowercasing of one character, as `str.lower` does on ASCII text. -/
def lowerChar (c : Char) : Char :=
  if 65 ≤ c.toNat ∧ c.toNat ≤ 90 then Char.ofNat (c.toNat + 32) else c

/-- Python's `s.lower()`. -/
def pyLower (s : String) : String := String.mk (s.data.map lowerChar)

/-- Whether `needle` is a prefix of `hay` (character lists). -/
def listPrefixOf : List Char → List Char → Bool
  | [], _ => true
  | _ :: _, [] => false
  | a :: as, b :: bs => a = b && listPrefixOf as bs

/-- Whether `needle` occurs contiguously inside `hay` (character lists). -/
def listInfixOf (needle : List Char) : List Char → Bool
  | [] => needle.isEmpty
  | c :: rest => listPrefixOf needle (c :: rest) || listInfixOf needle rest

/-- Python's `needle in hay` on strings: contiguous substring containment. -/
def strContains (hay needle : String) : Bool :=
  listInfixOf needle.data hay.data

/-- Whitespace characters removed by Python's `str.strip`. -/
def isSpaceChar (c : Char) : Bool :=
  c = ' ' || c = '\t' || c = '\n' || c = '\r' || c = '\x0b' || c = '\x0c'

/-- Python's `s.strip()`: drop surrounding whitespace. -/
def pyStrip (s : String) : String :=
  String.mk (((s.data.dropWhile isSpaceChar).reverse.dropWhile isSpaceChar).reverse)

/-- Splitting a character list at newline characters. -/
def splitListNl : List Char → List (List Char)
  | [] => [[]]
  | c :: rest =>
      if c = '\n' then [] :: splitListNl rest
      else
        match splitListNl rest with
        | [] => [[c]]
        | h :: t => (c :: h) :: t

/-- Python's `s.split(newline)`; on the empty string it yields one empty
field, exactly as Python does. -/
def splitLines (s : String) : List String :=
  (splitListNl s.data).map String.mk

/-- Python's `set(...)` built from a list: keep the first occurrence of
each element, dropping later duplicates. -/
def setOfList : List String → List String
  | [] => []
  | s :: rest => s :: (setOfList rest).filter (fun t => t ≠ s)

/-- Python's `sep.join(l)`. -/
def joinWith (sep : String) : List String → String
  | [] => ""
  | [s] => s
  | s :: rest => s ++ sep ++ joinWith sep rest

/-- The dictionary store: category name ↦ keyword set, in insertion order. -/
abbrev Store := List (String × List String)

/-- Python dict assignment `d[name] = v`: overwrite in place if the key is
present (keeping its position), otherwise append at the end.  The same
operation models a pandas column assignment. -/
def assocSet {α : Type} : List (String × α) → String → α → List (String × α)
  | [], name, v => [(name, v)]
  | p :: rest, name, v =>
      if p.1 = name then (name, v) :: rest else p :: assocSet rest name v

/-- Python dict lookup `d[name]`, as an option. -/
def assocLookup {α : Type} : List (String × α) → String → Option α
  | [], _ => Option.none
  | p :: rest, name => if p.1 = name then some p.2 else assocLookup rest name

/-- Store well-formedness: category names are pairwise-distinct keys
(automatic for a Python dict). -/
def storeWF (store : Store) : Prop :=
  (store.map Prod.fst).Nodup

/-- The categories matched by a text, in the store's iteration order: the
loop of `classify_text` (src/1_app.py lines 35-39), where the `break`
makes a category contribute once as soon as any of its keywords occurs in
the lowered text. -/
def matchedCategories (text : PyValue) (dictionaries : Store) : List String :=
  dictionaries.filterMap (fun cat =>
    if cat.2.any (fun keyword => strContains (pyLower (pyStr text)) keyword) then
      some cat.1
    else
      Option.none)

/-- `classify_text` (src/1_app.py lines 30-41): lower the stringified
text, collect the matched categories, and join them with ", ", or return
the sentinel "unclassified" when nothing matched. -/
def classify_text (text : PyValue) (dictionaries : Store) : String :=
  let classifications := matchedCategories text dictionaries
  if classifications.isEmpty then "unclassified"
  else joinWith ", " classifications

/-- A call to `classify_text` as the caller observes it: the produced
label together with the dictionary store after the call (the function
only reads the store, so the store is returned as it was). -/
def classify_call (text : PyValue) (dictionaries : Store) : String × Store :=
  (classify_text text dictionaries, dictionaries)

/-- Keyword parsing shared by the Add and Update actions (src/1_app.py
lines 71 and 88): `set(kw.strip() for kw in input.split(newline) if kw.strip())`. -/
def parseKeywords (input : String) : List String :=
  setOfList (((splitLines input).map pyStrip).filter (fun kw => kw ≠ ""))

/-- The Add Category action (src/1_app.py lines 86-93): if both text
inputs are non-empty strings, insert the parsed keyword set under the
given name (overwriting silently) and report success; otherwise report a
user error and leave the store unchanged.  The boolean is `true` on the
success branch and `false` on the error branch. -/
def addCategory (name keywordsInput : String) (store : Store) : Store × Bool :=
  if name ≠ "" ∧ keywordsInput ≠ "" then
    (assocSet store name (parseKeywords keywordsInput), true)
  else
    (store, false)

/-- The Update button of a category's expander (src/1_app.py lines 69-73):
unconditionally replace the keyword set with the parsed text area. -/
def updateCategory (store : Store) (category : String) (newKeywords : String) : Store :=
  assocSet store category (parseKeywords newKeywords)

/-- The Delete button (src/1_app.py lines 76-79): `del dictionaries[category]`. -/
def deleteCategory (store : Store) (category : String) : Store :=
  store.filter (fun p => p.1 ≠ category)

/-- A table row: named fields in column order. -/
structure Row where
  fields : List (String × PyValue)
deriving DecidableEq

/-- The designated text-column value of a row (the column is chosen from
the table's own column list, so it is present in the intended uses). -/
def rowGet (r : Row) (col : String) : PyValue :=
  (assocLookup r.fields col).getD PyValue.none

/-- The batch classification (src/1_app.py lines 131-135):
`df[classification] = df[text_column].apply(lambda x: classify_text(x, dictionaries))`,
i.e. per row, assign the label of the row's text-column value to the
`classification` column (pandas column assignment overwrites an existing
column of that name in place, else appends it at the end). -/
def classifyAll (store : Store) (col : String) (rows : List Row) : List Row :=
  rows.map (fun r =>
    Row.mk (assocSet r.fields "classification"
      (PyValue.str (classify_text (rowGet r col) store))))

/-! ### Helper lemmas -/

theorem filterMap_guard {α β : Type} (f : α → β) (q : α → Bool) (l : List α) :
    l.filterMap (fun a => if q a then some (f a) else Option.none) =
      (l.filter q).map f := by
  induction l with
  | nil => rfl
  | cons a l ih =>
      cases h : q a <;> simp [List.filterMap_cons, List.filter_cons, h, ih]

theorem matchedCategories_eq (t : PyValue) (s : Store) :
    matchedCategories t s =
      (s.filter (fun p =>
        p.2.any (fun kw => strContains (pyLower (pyStr t)) kw))).map Prod.fst := by
  unfold matchedCategories
  exact filterMap_guard Prod.fst
    (fun p => p.2.any (fun kw => strContains (pyLower (pyStr t)) kw)) s

theorem assocLookup_assocSet_self {α : Type} (l : List (String × α))
    (name : String) (v : α) :
    assocLookup (assocSet l name v) name = some v := by
  induction l with
  | nil => simp [assocSet, assocLookup]
  | cons p rest ih =>
      by_cases h : p.1 = name
      · simp [assocSet, assocLookup, h]
      · simp [assocSet, assocLookup, h, ih]

theorem assocLookup_assocSet_other {α : Type} (l : List (String × α))
    (name : String) (v : α) (other : String) (h : other ≠ name) :
    assocLookup (assocSet l name v) other = assocLookup l other := by
  have hne : ¬ name = other := fun e => h e.symm
  induction l with
  | nil =>
      simp only [assocSet, assocLookup]
      rw [if_neg hne]
  | cons p rest ih =>
      by_cases hp : p.1 = name
      · have hpo : ¬ p.1 = other := by rw [hp]; exact hne
        simp only [assocSet, if_pos hp, assocLookup, if_neg hne, if_neg hpo]
      · by_cases ho : p.1 = other
        · simp only [assocSet, if_neg hp, assocLookup, if_pos ho]
        · simp only [assocSet, if_neg hp, assocLookup, if_neg ho]
          exact ih

theorem mem_keys_assocSet {α : Type} (l : List (String × α)) (name : String)
    (v : α) (x : String) :
    x ∈ (assocSet l name v).map Prod.fst ↔ x ∈ l.map Prod.fst ∨ x = name := by
  induction l with
  | nil => simp [assocSet]
  | cons p rest ih =>
      by_cases h : p.1 = name
      · subst h
        simp [assocSet]
        tauto
      · simp [assocSet, h, ih]
        tauto

theorem nodup_keys_assocSet {α : Type} (l : List (String × α)) (name : String)
    (v : α) (h : (l.map Prod.fst).Nodup) :
    ((assocSet l name v).map Prod.fst).Nodup := by
  induction l with
  | nil => simp [assocSet]
  | cons p rest ih =>
      simp only [List.map_cons, List.nodup_cons] at h
      by_cases hp : p.1 = name
      · subst hp
        simpa [assocSet] using h
      · simp only [assocSet, if_neg hp, List.map_cons, List.nodup_cons]
        refine ⟨?_, ih h.2⟩
        intro hmem
        rcases (mem_keys_assocSet rest name v p.1).mp hmem with h1 | h2
        · exact h.1 h1
        · exact hp h2

theorem assocSet_of_absent {α : Type} (l : List (String × α)) (name : String)
    (v : α) (h : ∀ p ∈ l, p.1 ≠ name) :
    assocSet l name v = l ++ [(name, v)] := by
  induction l with
  | nil => rfl
  | cons p rest ih =>
      have hp : p.1 ≠ name := h p (by simp)
      simp only [assocSet, hp, if_neg hp]
      simp [ih (fun q hq => h q (by simp [hq]))]

theorem setOfList_eq_nil (l : List String) : setOfList l = [] ↔ l = [] := by
  cases l <;> simp [setOfList]

theorem parseKeywords_eq_nil (input : String) :
    parseKeywords input = [] ↔ ∀ line ∈ splitLines input, pyStrip line = "" := by
  rw [parseKeywords, setOfList_eq_nil, List.filter_eq_nil_iff]
  constructor
  · intro h line hline
    have := h (pyStrip line) (List.mem_map_of_mem pyStrip hline)
    simpa using this
  · intro h kw hkw
    rcases List.mem_map.mp hkw with ⟨line, hline, rfl⟩
    simpa using h line hline

/-! ### The claims -/

/-- Claim C1.  The claim states case-insensitive keyword-match soundness:
whenever the lowercase form of a stored keyword occurs in the lowercase
form of the text, its category appears in the label.  The code violates
this: `classify_text` lowers only the text and compares the keyword as
stored (src/1_app.py line 37, `keyword in text_lower`), so a keyword
containing an uppercase letter never matches, contradicting the program's
own displayed instructions ("Keywords are case-insensitive",
src/1_app.py line 231).  Concretely, with keyword "VIP" stored and the
text "join the vip club", the lowered keyword occurs in the lowered text
yet the result is "unclassified". -/
theorem claim_C1_bug :
    strContains (pyLower (pyStr (PyValue.str "join the vip club"))) (pyLower "VIP") = true ∧
    classify_text (PyValue.str "join the vip club") [("exclusive_marketing", ["VIP"])] =
      "unclassified" := by decide

/-- Claim C2, counterexample.  The Add Category action accepts the
keywords input " " (a single space, a non-empty string, hence truthy in
the Python guard), and the stored keyword set for the new category is
empty: the claimed invariant "the stored keyword set is non-empty after
every accepted add" is false. -/
theorem claim_C2_counterexample :
    (addCategory "promo" " " []).2 = true ∧
    assocLookup (addCategory "promo" " " []).1 "promo" = some [] := by decide

/-- Claim C2, amended.  After every Add Category action the UI accepts,
and after every Update action, the stored keyword set for that category
is exactly the set of trimmed keyword lines of the input with blank lines
discarded — which is empty exactly when every line of the input is blank
after trimming, so non-empty whenever some line is non-blank — and
category names remain unique keys of the store. -/
theorem claim_C2_amended (name kws : String) (store : Store)
    (hwf : storeWF store) :
    ((addCategory name kws store).2 = true →
      storeWF (addCategory name kws store).1 ∧
      assocLookup (addCategory name kws store).1 name = some (parseKeywords kws)) ∧
    (storeWF (updateCategory store name kws) ∧
      assocLookup (updateCategory store name kws) name = some (parseKeywords kws)) ∧
    (parseKeywords kws = [] ↔ ∀ line ∈ splitLines kws, pyStrip line = "") := by
  refine ⟨?_, ⟨?_, ?_⟩, parseKeywords_eq_nil kws⟩
  · intro hacc
    by_cases hcond : name ≠ "" ∧ kws ≠ ""
    · constructor
      · simpa [addCategory, hcond] using
          nodup_keys_assocSet store name (parseKeywords kws) hwf
      · simpa [addCategory, hcond] using
          assocLookup_assocSet_self store name (parseKeywords kws)
    · simp [addCategory, hcond] at hacc
  · exact nodup_keys_assocSet store name (parseKeywords kws) hwf
  · exact assocLookup_assocSet_self store name (parseKeywords kws)

/-- Claim C2, witness of the amended theorem at a concrete accepted add. -/
theorem claim_C2_witness :
    storeWF ([] : Store) ∧
    (addCategory "promo" "vip" ([] : Store)).2 = true ∧
    assocLookup (addCategory "promo" "vip" ([] : Store)).1 "promo" = some ["vip"] := by
  have h := claim_C2_amended "promo" "vip" [] (by unfold storeWF; decide)
  refine ⟨by unfold storeWF; decide, by decide, ?_⟩
  have hl := (h.1 (by decide)).2
  have he : parseKeywords "vip" = ["vip"] := by decide
  rw [he] at hl
  exact hl

/-- Claim C3.  If no stored keyword (as stored) occurs as a substring of
the lowered text — in particular whenever the store is empty, since the
hypothesis is then vacuous — `classify_text` returns exactly the sentinel
"unclassified". -/
theorem claim_C3 (t : PyValue) (store : Store)
    (h : ∀ p ∈ store, ∀ kw ∈ p.2, strContains (pyLower (pyStr t)) kw = false) :
    classify_text t store = "unclassified" := by
  have hm : matchedCategories t store = [] := by
    rw [matchedCategories, List.filterMap_eq_nil_iff]
    intro p hp
    have hany : p.2.any (fun kw => strContains (pyLower (pyStr t)) kw) = false :=
      List.any_eq_false.mpr (fun kw hkw => by simp [h p hp kw hkw])
    simp [hany]
  simp [classify_text, hm]

/-- Claim C3, witness: the spec's example text matches nothing in the
example store, and the empty store matches nothing vacuously. -/
theorem claim_C3_witness :
    classify_text (PyValue.str "Plain product description")
      [("urgency_marketing", ["hurry", "act now"]), ("exclusive_marketing", ["vip"])] =
      "unclassified" ∧
    classify_text (PyValue.str "anything at all") [] = "unclassified" := by
  constructor
  · exact claim_C3 (PyValue.str "Plain product description")
      [("urgency_marketing", ["hurry", "act now"]), ("exclusive_marketing", ["vip"])]
      (by decide)
  · exact claim_C3 (PyValue.str "anything at all") [] (by decide)

/-- Claim C4.  When at least one category matches, the label is exactly
the matched category names joined by ", "; the matched names form a
sublist of the store's key sequence (hence appear in the store's
insertion/iteration order), and each of them is the name of a store entry
one of whose keywords occurs in the lowered text. -/
theorem claim_C4 (t : PyValue) (store : Store)
    (h : matchedCategories t store ≠ []) :
    classify_text t store = joinWith ", " (matchedCategories t store) ∧
    List.Sublist (matchedCategories t store) (store.map Prod.fst) ∧
    ∀ name ∈ matchedCategories t store, ∃ kws, (name, kws) ∈ store ∧
      kws.any (fun kw => strContains (pyLower (pyStr t)) kw) = true := by
  refine ⟨?_, ?_, ?_⟩
  · simp [classify_text, List.isEmpty_iff, h]
  · rw [matchedCategories_eq]
    exact (List.filter_sublist store).map Prod.fst
  · intro name hname
    rw [matchedCategories_eq] at hname
    rcases List.mem_map.mp hname with ⟨p, hp, rfl⟩
    rcases List.mem_filter.mp hp with ⟨hps, hcond⟩
    exact ⟨p.2, by simpa using hps, by simpa using hcond⟩

/-- Claim C4, witness at the spec's example store and text. -/
theorem claim_C4_witness :
    classify_text (PyValue.str "Act now, VIP members get early access")
        [("urgency_marketing", ["hurry", "act now"]), ("exclusive_marketing", ["vip"])] =
      joinWith ", "
        (matchedCategories (PyValue.str "Act now, VIP members get early access")
          [("urgency_marketing", ["hurry", "act now"]), ("exclusive_marketing", ["vip"])]) ∧
    List.Sublist
      (matchedCategories (PyValue.str "Act now, VIP members get early access")
        [("urgency_marketing", ["hurry", "act now"]), ("exclusive_marketing", ["vip"])])
      ["urgency_marketing", "exclusive_marketing"] := by
  have h := claim_C4 (PyValue.str "Act now, VIP members get early access")
    [("urgency_marketing", ["hurry", "act now"]), ("exclusive_marketing", ["vip"])]
    (by decide)
  exact ⟨h.1, h.2.1⟩

/-- Claim C5.  If the category name or the keywords input is the empty
string, the Add Category action reports a user error (boolean `false`)
and leaves the store unchanged; otherwise it reports success, the stored
set under that name becomes the trimmed non-blank keyword lines of the
input (silently overwriting any existing entry with that name), and every
other name maps exactly as before. -/
theorem claim_C5 (name kws : String) (store : Store) :
    ((name = "" ∨ kws = "") → addCategory name kws store = (store, false)) ∧
    (name ≠ "" → kws ≠ "" →
      (addCategory name kws store).2 = true ∧
      assocLookup (addCategory name kws store).1 name =
        some (setOfList (((splitLines kws).map pyStrip).filter (fun kw => kw ≠ ""))) ∧
      ∀ other, other ≠ name →
        assocLookup (addCategory name kws store).1 other = assocLookup store other) := by
  constructor
  · intro hempty
    have hcond : ¬(name ≠ "" ∧ kws ≠ "") := by tauto
    simp [addCategory, hcond]
  · intro hn hk
    have hcond : name ≠ "" ∧ kws ≠ "" := ⟨hn, hk⟩
    refine ⟨by simp [addCategory, hcond], ?_, ?_⟩
    · simpa [addCategory, hcond, parseKeywords] using
        assocLookup_assocSet_self store name (parseKeywords kws)
    · intro other hother
      simpa [addCategory, hcond] using
        assocLookup_assocSet_other store name (parseKeywords kws) other hother

/-- Claim C5, witness: an empty-name add is rejected and leaves the store
unchanged, and a well-formed add overwrites the existing entry while
leaving the other entry alone. -/
theorem claim_C5_witness :
    addCategory "" "vip" [("a", ["x"])] = ([("a", ["x"])], false) ∧
    (addCategory "a" " vip \n\nhurry " [("a", ["x"]), ("b", ["y"])]).2 = true ∧
    assocLookup (addCategory "a" " vip \n\nhurry " [("a", ["x"]), ("b", ["y"])]).1 "a" =
      some ["vip", "hurry"] ∧
    assocLookup (addCategory "a" " vip \n\nhurry " [("a", ["x"]), ("b", ["y"])]).1 "b" =
      some ["y"] := by
  have h1 := (claim_C5 "" "vip" [("a", ["x"])]).1 (Or.inl rfl)
  have h2 := (claim_C5 "a" " vip \n\nhurry " [("a", ["x"]), ("b", ["y"])]).2
    (by decide) (by decide)
  refine ⟨h1, h2.1, ?_, ?_⟩
  · have hl := h2.2.1
    have he : setOfList ((((splitLines " vip \n\nhurry ").map pyStrip).filter
        (fun kw => kw ≠ ""))) = ["vip", "hurry"] := by decide
    rw [he] at hl
    exact hl
  · exact h2.2.2 "b" (by decide)

/-- Claim C6, counterexample.  When a row already has a field named
"classification", the batch classification overwrites that field in place
instead of appending a new field and leaving every original field
unchanged: on the row [("classification", "old"), ("text", "say hello")]
with the single-category store [("greeting", ["hello"])], the resulting
fields differ from the original fields extended by the new label. -/
theorem claim_C6_counterexample :
    (classifyAll [("greeting", ["hello"])] "text"
        [Row.mk [("classification", PyValue.str "old"),
                 ("text", PyValue.str "say hello")]]).map Row.fields ≠
      [[("classification", PyValue.str "old"), ("text", PyValue.str "say hello"),
        ("classification", PyValue.str (classify_text (PyValue.str "say hello")
          [("greeting", ["hello"])]))]] := by decide

/-- Claim C6, amended.  The batch classification computes `classify_text`
independently for each row's text-column value and assigns the result to
the "classification" column: row order and count are preserved; in each
output row the "classification" field holds exactly that row's label;
every original field with any other name is unchanged; and when no
original field is named "classification" the new field is appended after
all original fields, which are then all unchanged — a pre-existing
"classification" field, however, is overwritten in place. -/
theorem claim_C6_amended (store : Store) (col : String) (rows : List Row) :
    (classifyAll store col rows).length = rows.length ∧
    ∀ i : Nat, ∀ hi : i < rows.length, ∀ hj : i < (classifyAll store col rows).length,
      (assocLookup (classifyAll store col rows)[i].fields "classification" =
        some (PyValue.str (classify_text (rowGet rows[i] col) store))) ∧
      (∀ other, other ≠ "classification" →
        assocLookup (classifyAll store col rows)[i].fields other =
          assocLookup rows[i].fields other) ∧
      ((∀ p ∈ rows[i].fields, p.1 ≠ "classification") →
        (classifyAll store col rows)[i].fields =
          rows[i].fields ++
            [("classification",
              PyValue.str (classify_text (rowGet rows[i] col) store))]) := by
  refine ⟨by simp [classifyAll], ?_⟩
  intro i hi hj
  have hrow : (classifyAll store col rows)[i] =
      Row.mk (assocSet rows[i].fields "classification"
        (PyValue.str (classify_text (rowGet rows[i] col) store))) := by
    simp [classifyAll]
  refine ⟨?_, ?_, ?_⟩
  · rw [hrow]
    exact assocLookup_assocSet_self rows[i].fields "classification" _
  · intro other hother
    rw [hrow]
    exact assocLookup_assocSet_other rows[i].fields "classification" _ other hother
  · intro habsent
    rw [hrow]
    simpa using assocSet_of_absent rows[i].fields "classification" _ habsent

/-- Claim C6, witness at a concrete two-row table with no pre-existing
"classification" column. -/
theorem claim_C6_witness :
    (classifyAll [("greeting", ["hello"])] "text"
        [Row.mk [("id", PyValue.int 1), ("text", PyValue.str "say hello")],
         Row.mk [("id", PyValue.int 2), ("text", PyValue.str "nothing here")]]).length = 2 ∧
    (classifyAll [("greeting", ["hello"])] "text"
        [Row.mk [("id", PyValue.int 1), ("text", PyValue.str "say hello")],
         Row.mk [("id", PyValue.int 2), ("text", PyValue.str "nothing here")]])[0].fields =
      [("id", PyValue.int 1), ("text", PyValue.str "say hello")] ++
        [("classification", PyValue.str (classify_text (PyValue.str "say hello")
          [("greeting", ["hello"])]))] := by
  have h := claim_C6_amended [("greeting", ["hello"])] "text"
    [Row.mk [("id", PyValue.int 1), ("text", PyValue.str "say hello")],
     Row.mk [("id", PyValue.int 2), ("text", PyValue.str "nothing here")]]
  refine ⟨h.1, ?_⟩
  have h0 := (h.2 0 (by decide) (by simp [classifyAll])).2.2 (by decide)
  simpa [rowGet, assocLookup] using h0

/-- Claim C7.  `classify_text` is pure and deterministic: a call leaves
the dictionary store exactly as it was, and a second call on the store
returned by the first call produces the same label as the first. -/
theorem claim_C7 (t : PyValue) (store : Store) :
    (classify_call t store).2 = store ∧
    (classify_call t ((classify_call t store).2)).1 = (classify_call t store).1 :=
  ⟨rfl, rfl⟩

/-- Claim C8.  `classify_text` first coerces its input to its string
representation: for every input value (string or not), classifying the
value equals classifying its string representation. -/
theorem claim_C8 (x : PyValue) (store : Store) :
    classify_text x store = classify_text (PyValue.str (pyStr x)) store := rfl

/-- Claim C9.  Worked example: with the store holding urgency_marketing
= {"hurry", "act now"} then exclusive_marketing = {"vip"}, the text
"Act now, VIP members get early access" classifies to
"urgency_marketing, exclusive_marketing"; after deleting the category
exclusive_marketing, the same text classifies to "urgency_marketing". -/
theorem claim_C9 :
    classify_text (PyValue.str "Act now, VIP members get early access")
        [("urgency_marketing", ["hurry", "act now"]), ("exclusive_marketing", ["vip"])] =
      "urgency_marketing, exclusive_marketing" ∧
    classify_text (PyValue.str "Act now, VIP members get early access")
        (deleteCategory
          [("urgency_marketing", ["hurry", "act now"]), ("exclusive_marketing", ["vip"])]
          "exclusive_marketing") =
      "urgency_marketing" := by decide

/-- Claim C10.  For every input value and store with unique category
names, `classify_text` returns either the sentinel "unclassified" or the
", "-join of a non-empty duplicate-free list of category names of the
store — each category contributing at most one occurrence even when
several of its keywords match.  (Totality is inherent: the function is a
structurally terminating Lean definition.) -/
theorem claim_C10 (t : PyValue) (store : Store) (hwf : storeWF store) :
    classify_text t store = "unclassified" ∨
    ∃ l : List String, l ≠ [] ∧ l.Nodup ∧ (∀ c ∈ l, c ∈ store.map Prod.fst) ∧
      classify_text t store = joinWith ", " l := by
  by_cases h : matchedCategories t store = []
  · left
    simp [classify_text, h]
  · right
    refine ⟨matchedCategories t store, h, ?_, ?_, ?_⟩
    · have hsub : List.Sublist (matchedCategories t store) (store.map Prod.fst) := by
        rw [matchedCategories_eq]
        exact (List.filter_sublist store).map Prod.fst
      exact List.Nodup.sublist hsub hwf
    · intro c hc
      have hsub : List.Sublist (matchedCategories t store) (store.map Prod.fst) := by
        rw [matchedCategories_eq]
        exact (List.filter_sublist store).map Prod.fst
      exact hsub.subset hc
    · simp [classify_text, List.isEmpty_iff, h]

/-- Claim C10, witness at a concrete store with unique names and a text
matching two keywords of the same category exactly once in the label. -/
theorem claim_C10_witness :
    storeWF [("urgency_marketing", ["hurry", "act now"]), ("exclusive_marketing", ["vip"])] ∧
    (classify_text (PyValue.str "hurry and act now")
        [("urgency_marketing", ["hurry", "act now"]), ("exclusive_marketing", ["vip"])] =
        "unclassified" ∨
      ∃ l : List String, l ≠ [] ∧ l.Nodup ∧
        (∀ c ∈ l, c ∈ ([("urgency_marketing", ["hurry", "act now"]),
          ("exclusive_marketing", ["vip"])] : Store).map Prod.fst) ∧
        classify_text (PyValue.str "hurry and act now")
          [("urgency_marketing", ["hurry", "act now"]), ("exclusive_marketing", ["vip"])] =
          joinWith ", " l) := by
  refine ⟨by unfold storeWF; decide, ?_⟩
  exact claim_C10 (PyValue.str "hurry and act now")
    [("urgency_marketing", ["hurry", "act now"]), ("exclusive_marketing", ["vip"])]
    (by unfold storeWF; decide)
